import Mathlib

/-!
Verification development for the `svg-physics-engine` repository
(`src/js/core/SVGPhysics.js`, `src/js/core/utils.js`).

The JavaScript source is shallowly embedded below.  Floating-point numbers
are idealised as exact rationals (`ℚ`); DOM lookups are modelled as partial
maps from selector strings; the external collaborators (Matter.js body
factory `Bodies.fromVertices`, the SVG sampler `Matter.Svg.pathToVertices`)
are taken as parameters of the model, while the pure geometric helpers the
shape pipeline relies on (`Matter.Vertices.hull`, `Matter.Vertices.centre`)
are embedded directly from the library's algorithms (Andrew monotone-chain
hull; area-weighted polygon centroid).
-/

namespace SVGP

/-- A 2-D point/vector with exact rational coordinates. -/
structure Vec2 where
  x : ℚ
  y : ℚ
deriving DecidableEq, Repr, Inhabited

/-- Uniform scaling of a point by a factor `k`. -/
def smul (k : ℚ) (v : Vec2) : Vec2 := ⟨k * v.x, k * v.y⟩

/-- Comparator order used by `Matter.Vertices.hull`: ascending by `x`,
ties broken ascending by `y` (the JS sort comparator `dx !== 0 ? dx : dy`). -/
def vLE (a b : Vec2) : Bool := decide (a.x < b.x ∨ (a.x = b.x ∧ a.y ≤ b.y))

/-- Insert a point into a list sorted by `vLE`. -/
def insertV (p : Vec2) : List Vec2 → List Vec2
  | [] => [p]
  | q :: r => if vLE p q then p :: q :: r else q :: insertV p r

/-- Sort a point list by `vLE` (models the JS `Array.sort` call in
`Matter.Vertices.hull`; the comparator is a total preorder whose ties are
equal points, so any comparison sort yields this result). -/
def sortV : List Vec2 → List Vec2
  | [] => []
  | p :: r => insertV p (sortV r)

/-- `Matter.Vector.cross3 a b c = (b - a) × (c - a)`. -/
def cross3 (a b c : Vec2) : ℚ :=
  (b.x - a.x) * (c.y - a.y) - (b.y - a.y) * (c.x - a.x)

/-- One step of the monotone-chain scan: push `p`, popping while the turn
through the last two stacked points is non-left (`cross3 ≤ 0`), exactly as
the `while` loop in `Matter.Vertices.hull`.  The accumulator is kept in
reverse order (head = most recently pushed). -/
def addHullPoint : List Vec2 → Vec2 → List Vec2
  | b :: a :: rest, p =>
    if cross3 a b p ≤ 0 then addHullPoint (a :: rest) p else p :: b :: a :: rest
  | acc, p => p :: acc

/-- A half (lower or upper) hull chain in reverse order. -/
def halfHull (pts : List Vec2) : List Vec2 := pts.foldl addHullPoint []

/-- `Matter.Vertices.hull`: sort, build lower chain on the ascending pass and
upper chain on the descending pass, `pop()` the last point of each, and
return `upper.concat(lower)`.  (`l.tail.reverse` is the JS array after its
`pop()`, since our chains are stored reversed.) -/
def hull (pts : List Vec2) : List Vec2 :=
  let s := sortV pts
  let lower := (halfHull s).tail.reverse
  let upper := (halfHull s.reverse).tail.reverse
  upper ++ lower

/-- `Matter.Vector.cross a b = a.x * b.y - a.y * b.x`. -/
def crossV (a b : Vec2) : ℚ := a.x * b.y - a.y * b.x

/-- Consecutive vertex pairs of a polygon, cyclically (`j = (i + 1) % n`). -/
def cyclePairs (vs : List Vec2) : List (Vec2 × Vec2) := vs.zip (vs.rotate 1)

/-- `Matter.Vertices.area(vs, signed := true)`: half the sum over cyclically
adjacent pairs of `(pre.x - cur.x) * (pre.y + cur.y)`. -/
def signedArea (vs : List Vec2) : ℚ :=
  ((cyclePairs vs).map (fun pq => (pq.1.x - pq.2.x) * (pq.1.y + pq.2.y))).sum / 2

/-- `Matter.Vertices.centre`: the area-weighted polygon centroid
`(Σ (vᵢ + vⱼ) · cross(vᵢ, vⱼ)) / (6 · signedArea)` with `j = i + 1` cyclic. -/
def centre (vs : List Vec2) : Vec2 :=
  let cx := ((cyclePairs vs).map (fun pq => (pq.1.x + pq.2.x) * crossV pq.1 pq.2)).sum
  let cy := ((cyclePairs vs).map (fun pq => (pq.1.y + pq.2.y) * crossV pq.1 pq.2)).sum
  ⟨cx / (6 * signedArea vs), cy / (6 * signedArea vs)⟩

/-! ### The path-string scaler `#scaleDString`

`#scaleDString(d, scale)` is `d.replace(/(-?\d*\.?\d+)/g, num => String(parseFloat(num) * scale))`.
We model the regex scan over the character list: at each position the engine
tries to match `-?\d*\.?\d+` (optional minus, greedy digits, optional dot,
at least one digit); on a match it substitutes the scaled value and resumes
after it, otherwise it copies one character.  JS numbers are idealised as
exact rationals. -/

/-- The set of characters `-?\d*\.?\d+` can match starting at the head of
`cs`, without the leading sign: returns the matched text and the rest.
Backtracking of `\.?` is reflected in the empty-fraction fallbacks. -/
def matchBody (cs : List Char) : Option (List Char × List Char) :=
  match cs.dropWhile Char.isDigit with
  | '.' :: r2 =>
    match r2.takeWhile Char.isDigit with
    | [] =>
      if (cs.takeWhile Char.isDigit).isEmpty then none
      else some (cs.takeWhile Char.isDigit, cs.dropWhile Char.isDigit)
    | d2 => some (cs.takeWhile Char.isDigit ++ '.' :: d2, r2.dropWhile Char.isDigit)
  | _ =>
    if (cs.takeWhile Char.isDigit).isEmpty then none
    else some (cs.takeWhile Char.isDigit, cs.dropWhile Char.isDigit)

/-- A full `-?\d*\.?\d+` match attempt at the head of `cs`. -/
def matchNum (cs : List Char) : Option (List Char × List Char) :=
  match cs with
  | '-' :: rest =>
    match matchBody rest with
    | some (m, r) => some ('-' :: m, r)
    | none => none
  | _ => matchBody cs

/-- A token of the regex scan: either a numeric match (its raw text) or a
single unmatched character. -/
inductive Tok where
  | num (raw : List Char)
  | chr (c : Char)
deriving DecidableEq, Repr

/-- The left-to-right scan of the global regex `/(-?\d*\.?\d+)/g` over a
character list, with explicit fuel (each step consumes at least one
character, so `cs.length` fuel always suffices; see `tokenizeF_fuel`). -/
def tokenizeF : ℕ → List Char → List Tok
  | 0, _ => []
  | _, [] => []
  | fuel + 1, c :: rest =>
    match matchNum (c :: rest) with
    | some (m, r) => Tok.num m :: tokenizeF fuel r
    | none => Tok.chr c :: tokenizeF fuel rest

/-- The regex scan over a character list. -/
def tokenize (cs : List Char) : List Tok := tokenizeF cs.length cs

/-- The numeric value of a digit string. -/
def digitsVal (cs : List Char) : ℕ :=
  cs.foldl (fun a c => 10 * a + (c.toNat - 48)) 0

/-- `parseFloat` on an unsigned match (`digits`, optionally `.digits`),
idealised over exact rationals. -/
def rawValPos (cs : List Char) : ℚ :=
  match cs.dropWhile Char.isDigit with
  | '.' :: d2 =>
    (digitsVal (cs.takeWhile Char.isDigit) : ℚ) +
      (digitsVal d2 : ℚ) / (10 : ℚ) ^ d2.length
  | _ => (digitsVal (cs.takeWhile Char.isDigit) : ℚ)

/-- `parseFloat` on a matched token (possibly signed), idealised. -/
def rawVal : List Char → ℚ
  | '-' :: cs => -(rawValPos cs)
  | cs => rawValPos cs

/-- Decimal digits of the fractional part `r / d` (with fuel; every value
arising from scaling a decimal literal by a decimal factor terminates
within the fuel used below, matching JS `String()` on such numbers). -/
def fracDigits (fuel r d : ℕ) : List Char :=
  match fuel with
  | 0 => []
  | fuel + 1 =>
    if r = 0 then []
    else Char.ofNat (48 + r * 10 / d) :: fracDigits fuel (r * 10 % d) d

/-- JS `String()` of a number, idealised for exact rationals: sign, integer
part, and the (terminating) fractional digits. -/
def jsNumToString (q : ℚ) : String :=
  let n := q.num.natAbs
  let d := q.den
  let ip := Nat.repr (n / d)
  let core :=
    if n % d = 0 then ip
    else ip ++ "." ++ String.mk (fracDigits 64 (n % d) d)
  if q < 0 then "-" ++ core else core

/-- The fused scan of `d.replace(/(-?\d*\.?\d+)/g, num => String(parseFloat(num) * scale))`:
each match is replaced by the rendering of its scaled value, all other
characters are copied. -/
def scaleGoF (scale : ℚ) : ℕ → List Char → List Char
  | 0, _ => []
  | _, [] => []
  | fuel + 1, c :: rest =>
    match matchNum (c :: rest) with
    | some (m, r) => (jsNumToString (rawVal m * scale)).data ++ scaleGoF scale fuel r
    | none => c :: scaleGoF scale fuel rest

/-- The fused replace scan over a whole character list. -/
def scaleGo (scale : ℚ) (cs : List Char) : List Char := scaleGoF scale cs.length cs

/-- `#scaleDString(d, scale)` from `SVGPhysics.js`. -/
def scaleDString (d : String) (scale : ℚ) : String := ⟨scaleGo scale d.data⟩

/-- A scanned token after substitution: a scaled numeric value, or an
untouched character. -/
inductive STok where
  | num (q : ℚ)
  | chr (c : Char)
deriving DecidableEq, Repr

/-- What the replacement callback does to one token: numeric matches are
parsed and multiplied by the factor, other characters pass through. -/
def scaleTok (scale : ℚ) : Tok → STok
  | Tok.num raw => STok.num (rawVal raw * scale)
  | Tok.chr c => STok.chr c

/-- Rendering of a substituted token back to characters. -/
def renderSTok : STok → List Char
  | STok.num q => (jsNumToString q).data
  | STok.chr c => [c]

/-- The numeric value carried by a scanned token, if any. -/
def tokVal : Tok → Option ℚ
  | Tok.num raw => some (rawVal raw)
  | Tok.chr _ => none

/-- The numeric value carried by a substituted token, if any. -/
def stokVal : STok → Option ℚ
  | STok.num q => some q
  | STok.chr _ => none

/-- The plain character carried by a scanned token, if any. -/
def tokChr : Tok → Option Char
  | Tok.num _ => none
  | Tok.chr c => some c

/-- The plain character carried by a substituted token, if any. -/
def stokChr : STok → Option Char
  | STok.num _ => none
  | STok.chr c => some c

/-! ### The SVG path-number grammar, for comparison

The spec speaks of the "numeric coordinate tokens" of a path string.  SVG
path data numbers follow the CSS number grammar: optional sign, decimal
mantissa, optional exponent part (`e`/`E`, optional sign, digits).  The
following scanner reads the numbers of a path string under that grammar;
it is a spec-side definition used to compare the scaler's regex (which has
no exponent part) against the claim's wording. -/

/-- One digit run and its value, if nonempty. -/
def digitsPart (cs : List Char) : Option (ℕ × List Char) :=
  match cs.takeWhile Char.isDigit with
  | [] => none
  | ds => some (digitsVal ds, cs.dropWhile Char.isDigit)

/-- An optionally signed exponent digit run. -/
def expPart (cs : List Char) : Option (ℤ × List Char) :=
  match cs with
  | '-' :: r => (digitsPart r).map (fun p => (-(p.1 : ℤ), p.2))
  | '+' :: r => (digitsPart r).map (fun p => ((p.1 : ℤ), p.2))
  | _ => (digitsPart cs).map (fun p => ((p.1 : ℤ), p.2))

/-- Apply a base-10 exponent to a mantissa. -/
def applyExp (m : ℚ) (e : ℤ) : ℚ :=
  if 0 ≤ e then m * 10 ^ e.toNat else m / 10 ^ (-e).toNat

/-- An unsigned SVG number (mantissa, optional exponent) at the head of
`cs`, with its value and the rest. -/
def svgBody (cs : List Char) : Option (ℚ × List Char) :=
  match matchBody cs with
  | none => none
  | some (m, r) =>
    match r with
    | e :: r2 =>
      if e = 'e' ∨ e = 'E' then
        match expPart r2 with
        | some p => some (applyExp (rawValPos m) p.1, p.2)
        | none => some (rawValPos m, r)
      else some (rawValPos m, r)
    | [] => some (rawValPos m, r)

/-- An optionally signed SVG number at the head of `cs`. -/
def svgMatchNum (cs : List Char) : Option (ℚ × List Char) :=
  match cs with
  | '-' :: r => (svgBody r).map (fun p => (-p.1, p.2))
  | '+' :: r => svgBody r
  | _ => svgBody cs

/-- Scan for the SVG-grammar numbers of a character list (fuelled). -/
def svgScanF : ℕ → List Char → List ℚ
  | 0, _ => []
  | _, [] => []
  | fuel + 1, c :: rest =>
    match svgMatchNum (c :: rest) with
    | some (q, r) => q :: svgScanF fuel r
    | none => svgScanF fuel rest

/-- The numeric coordinate values of a path string, read under the SVG
number grammar in document order. -/
def svgNumValues (s : String) : List ℚ := svgScanF s.data.length s.data

/-! ### The `SVGPhysics` class state model

The class is embedded as a state-transition model.  `Inst` is the private
state of one instance; `Ext` counts the observable external resources
(engines, runners started, p5 instances, canvases, window listeners, frame
callbacks) so that construction and destruction effects are visible.  The
p5 lifecycle is linearised: `new p5(sketch)` immediately runs `setup`
(canvas, mouse constraint, bodies, walls) and registers the debounced
`windowResized` handler and the `draw` frame callback. -/

/-- `config.debug`. -/
structure DebugCfg where
  devMode : Bool
  showBoundingBoxes : Bool
deriving DecidableEq, Repr, Inhabited

/-- `config.physics`. -/
structure PhysicsCfg where
  restitution : ℚ
  friction : ℚ
  vertexLimit : ℚ
  simplifyTolerance : ℚ
  minimumArea : ℚ
  positionIterations : ℕ
  velocityIterations : ℕ
deriving DecidableEq, Repr, Inhabited

/-- The configuration snapshot held by an instance (the keys the embedded
operations read). -/
structure Config where
  scale : ℚ
  debug : DebugCfg
  physics : PhysicsCfg
  mouseStiffness : ℚ
deriving DecidableEq, Repr, Inhabited

/-- A Matter.js rigid body, reduced to the state the claims inspect. -/
structure Body where
  position : Vec2
  velocity : Vec2
  angle : ℚ
  angularVelocity : ℚ
  isStatic : Bool
deriving DecidableEq, Repr, Inhabited

/-- One `shapeCache` entry: `{ hull, centroid, path2d, fill }`. -/
structure Shape where
  hull : List Vec2
  centroid : Vec2
  path2d : String
  fill : String
deriving DecidableEq, Repr, Inhabited

/-- A source `path` element: its `d` attribute and its `fill` attribute
(`none` when the attribute is absent). -/
structure PathEl where
  d : String
  fill : Option String
deriving DecidableEq, Repr, Inhabited

/-- A source SVG element: its `path` children in document order. -/
structure SvgEl where
  paths : List PathEl
deriving DecidableEq, Repr, Inhabited

/-- The container element: its content-box size. -/
structure Container where
  clientWidth : ℚ
  clientHeight : ℚ
deriving DecidableEq, Repr, Inhabited

/-- `document.querySelector`, split by the element kind each selector is
used for. -/
structure Document where
  containers : String → Option Container
  svgs : String → Option SvgEl

/-- External resources observable outside the instance. -/
structure Ext where
  engines : ℕ
  runnersStarted : ℕ
  p5Instances : ℕ
  canvases : ℕ
  resizeListeners : ℕ
  keydownListeners : ℕ
  frameCallbacks : ℕ
deriving DecidableEq, Repr, Inhabited

/-- The private state of an `SVGPhysics` instance. -/
structure Inst where
  config : Config
  shapeCache : List Shape
  bodies : List (Body × Shape)
  walls : List Body
  worldBodyCount : ℕ
  worldConstraintCount : ℕ
  canvasW : ℚ
  canvasH : ℚ
  runnerRunning : Bool
deriving DecidableEq, Repr, Inhabited

/-- The signature of `Matter.Bodies.fromVertices(x, y, [hull], {restitution,
friction}, true, simplifyTolerance, minimumArea)`: an external collaborator
returning a body, or a sentinel (`none`) on degenerate input. -/
def FromVertices : Type :=
  ℚ → ℚ → List Vec2 → ℚ → ℚ → ℚ → ℚ → Option Body

/-- The signature of `Matter.Svg.pathToVertices(path, sampleLength)`: an
external collaborator sampling a path string into points. -/
def PathToVertices : Type := String → ℚ → List Vec2

/-- `#initShapeCache(svgSelector, vertexLimit, scale)`: for each `path`
element under the source selector, scale its `d` string, sample it, take
the convex hull and its centroid, keep the scaled render path, and read the
fill (`getAttribute("fill") || "#3498db"`).  A missing source yields an
empty cache. -/
def initShapeCache (p2v : PathToVertices) (doc : Document)
    (svgSelector : String) (vertexLimit scale : ℚ) : List Shape :=
  match doc.svgs svgSelector with
  | none => []
  | some svg =>
    svg.paths.map (fun pathEl =>
      let newD := scaleDString pathEl.d scale
      let rawVerts := p2v newD vertexLimit
      let hullPts := hull rawVerts
      let fill :=
        match pathEl.fill with
        | none => "#3498db"
        | some f => if f = "" then "#3498db" else f
      { hull := hullPts, centroid := centre hullPts, path2d := newD,
        fill := fill })

/-- `#calcCenterOffsets(p)`: the union bounding box of all cached hulls,
centred in the canvas.  With no vertices at all the JS `Infinity` folds
yield `NaN` offsets, which no finite pair represents: that case is `none`
(it is only reachable with an empty cache or all-empty hulls, where no
body position consumes the offsets). -/
def calcCenterOffsets (cache : List Shape) (w h : ℚ) : Option (ℚ × ℚ) :=
  match cache.flatMap (fun s => s.hull) with
  | [] => none
  | v :: vs =>
    let minX := vs.foldl (fun a p => min a p.x) v.x
    let maxX := vs.foldl (fun a p => max a p.x) v.x
    let minY := vs.foldl (fun a p => min a p.y) v.y
    let maxY := vs.foldl (fun a p => max a p.y) v.y
    some ((w - (maxX - minX)) / 2 - minX, (h - (maxY - minY)) / 2 - minY)

/-- `#createBodies(p)` body loop: for each cached shape attempt
`Bodies.fromVertices` at `centroid + offset`; a falsy result is skipped
(`if (!body) return`), otherwise the pair `{ body, ...shape }` is appended. -/
def createBodies (fv : FromVertices) (cfg : Config) (offsetX offsetY : ℚ) :
    List Shape → List (Body × Shape)
  | [] => []
  | shape :: rest =>
    match fv (shape.centroid.x + offsetX) (shape.centroid.y + offsetY)
        shape.hull cfg.physics.restitution cfg.physics.friction
        cfg.physics.simplifyTolerance cfg.physics.minimumArea with
    | none => createBodies fv cfg offsetX offsetY rest
    | some b => (b, shape) :: createBodies fv cfg offsetX offsetY rest

/-- `Matter.Bodies.rectangle(x, y, w, h, { isStatic: true })`, reduced to
the state the claims inspect (the rectangle extent does not appear in any
claim). -/
def staticRect (x y : ℚ) : Body :=
  { position := ⟨x, y⟩, velocity := ⟨0, 0⟩, angle := 0, angularVelocity := 0,
    isStatic := true }

/-- `#createWalls(p)`: floor, left and right walls around a `w × h` canvas. -/
def createWalls (w h : ℚ) : List Body :=
  [staticRect (w / 2) (h + 50),
   staticRect (-50) (h / 2),
   staticRect (w + 50) (h / 2)]

/-- The constructor pipeline
(`#initShapeCache → #initMatter → #initP5/#setup → #setupDebugControls`),
with the invalid-container guard in front.  Returns the thrown error or
the constructed instance, together with the updated external resources. -/
def construct (p2v : PathToVertices) (fv : FromVertices) (doc : Document)
    (containerSel svgSel : String) (cfg : Config) (ext : Ext) :
    Except String Inst × Ext :=
  match doc.containers containerSel with
  | none => (Except.error "Invalid container selector", ext)
  | some cont =>
    let cache := initShapeCache p2v doc svgSel cfg.physics.vertexLimit cfg.scale
    let ext1 := { ext with engines := ext.engines + 1,
                           runnersStarted := ext.runnersStarted + 1 }
    let ext2 := { ext1 with p5Instances := ext1.p5Instances + 1,
                            resizeListeners := ext1.resizeListeners + 1,
                            frameCallbacks := ext1.frameCallbacks + 1,
                            canvases := ext1.canvases + 1 }
    let w := cont.clientWidth
    let h := cont.clientHeight
    let bodies :=
      match calcCenterOffsets cache w h with
      | some off => createBodies fv cfg off.1 off.2 cache
      | none => []
    let walls := createWalls w h
    let ext3 :=
      if cfg.debug.devMode then
        { ext2 with keydownListeners := ext2.keydownListeners + 1 }
      else ext2
    (Except.ok
      { config := cfg, shapeCache := cache, bodies := bodies, walls := walls,
        worldBodyCount := bodies.length + walls.length + 1,
        worldConstraintCount := 1, canvasW := w, canvasH := h,
        runnerRunning := true }, ext3)

/-- Replace the element at an index, leaving the list unchanged when the
index is out of range. -/
def modifyIdx (f : Body → Body) : ℕ → List Body → List Body
  | _, [] => []
  | 0, b :: r => f b :: r
  | n + 1, b :: r => b :: modifyIdx f n r

/-- `Matter.Body.setPosition` (without velocity update). -/
def setPosition (b : Body) (p : Vec2) : Body := { b with position := p }

/-- `#handleResize(p)`: resize the canvas to the container's current size
and `setPosition` the walls at indices 0 (floor) and 2 (right). -/
def handleResize (s : Inst) (w h : ℚ) : Inst :=
  { s with
    canvasW := w
    canvasH := h
    walls :=
      modifyIdx (fun b => setPosition b ⟨w + 50, h / 2⟩) 2
        (modifyIdx (fun b => setPosition b ⟨w / 2, h + 50⟩) 0 s.walls) }

/-- `pause()`: stop the runner, `return this`. -/
def pause (s : Inst) : Inst × Option Inst :=
  let s1 := { s with runnerRunning := false }
  (s1, some s1)

/-- `resume()`: start the runner, `return this`. -/
def resume (s : Inst) : Inst × Option Inst :=
  let s1 := { s with runnerRunning := true }
  (s1, some s1)

/-- `destroy()`: `World.clear` (all bodies and constraints leave the
world), `Engine.clear`, `p5.remove()` (the canvas, the resize listener and
the draw frame callback go away; repeated removal is a no-op).  The keydown
listener installed by `#setupDebugControls` is not touched, the runner is
not stopped, and there is no `return` statement (`none`). -/
def destroy (s : Inst) (ext : Ext) : (Inst × Ext) × Option Inst :=
  let s1 := { s with worldBodyCount := 0, worldConstraintCount := 0 }
  let ext1 := { ext with p5Instances := ext.p5Instances - 1,
                         canvases := ext.canvases - 1,
                         resizeListeners := ext.resizeListeners - 1,
                         frameCallbacks := ext.frameCallbacks - 1 }
  ((s1, ext1), none)

/-! ### Concrete fixtures -/

/-- A sampler returning no points (enough for scenarios with no paths). -/
def p2v0 : PathToVertices := fun _ _ => []

/-- A body factory rejecting every hull. -/
def fv0 : FromVertices := fun _ _ _ _ _ _ _ => none

/-- The module-level `defaultConfig` object. -/
def defaultConfig : Config :=
  { scale := 1.3
    debug := { devMode := false, showBoundingBoxes := false }
    physics :=
      { restitution := 0.7
        friction := 0
        vertexLimit := 14
        simplifyTolerance := 0.02
        minimumArea := 5
        positionIterations := 3
        velocityIterations := 2 }
    mouseStiffness := 0.1 }

/-- The default configuration with `debug.devMode` switched on. -/
def cfgDev : Config :=
  { defaultConfig with debug := { devMode := true, showBoundingBoxes := false } }

/-- A document with a 100 × 100 container at `#container` and no SVG. -/
def doc1 : Document :=
  { containers := fun sel => if sel = "#container" then some ⟨100, 100⟩ else none
    svgs := fun _ => none }

/-- A document whose every container lookup succeeds and with no SVG. -/
def doc2 : Document :=
  { containers := fun _ => some ⟨200, 150⟩, svgs := fun _ => none }

/-- Three path elements: fill absent, fill empty, fill `red`. -/
def svg3 : SvgEl :=
  ⟨[⟨"M0 0", none⟩, ⟨"M0 0", some ""⟩, ⟨"M0 0", some "red"⟩]⟩

/-- A document serving `svg3` for every SVG lookup. -/
def doc3 : Document :=
  { containers := fun _ => some ⟨100, 100⟩, svgs := fun _ => some svg3 }

/-- No external resources yet. -/
def extZero : Ext := ⟨0, 0, 0, 0, 0, 0, 0⟩

/-- A constructed instance in devMode over `doc1`. -/
def run1 : Except String Inst × Ext :=
  construct p2v0 fv0 doc1 "#container" "svg" cfgDev extZero

/-- The instance of `run1`. -/
def inst1 : Inst :=
  match run1.1 with
  | Except.ok i => i
  | Except.error _ => default

/-- The external resources after `run1`. -/
def ext1 : Ext := run1.2

/-- First `destroy()` call on `inst1`. -/
def destr1 : (Inst × Ext) × Option Inst := destroy inst1 ext1

/-- Second `destroy()` call on the already-destroyed instance. -/
def destr2 : (Inst × Ext) × Option Inst := destroy destr1.1.1 destr1.1.2

/-- Whether `Bodies.fromVertices` accepts a cached shape at the given
offsets (a non-sentinel result). -/
def bodyAccepted (fv : FromVertices) (cfg : Config) (offsetX offsetY : ℚ)
    (sh : Shape) : Bool :=
  (fv (sh.centroid.x + offsetX) (sh.centroid.y + offsetY) sh.hull
    cfg.physics.restitution cfg.physics.friction cfg.physics.simplifyTolerance
    cfg.physics.minimumArea).isSome

lemma modifyIdx_length (f : Body → Body) :
    ∀ (n : ℕ) (l : List Body), (modifyIdx f n l).length = l.length := by
  intro n
  induction n with
  | zero => intro l; cases l <;> simp [modifyIdx]
  | succ n ih => intro l; cases l <;> simp [modifyIdx, ih]

section RatEval

attribute [local semireducible] Rat.add Rat.mul Rat.inv Rat.sub Rat.ofScientific

example : hull [⟨0,0⟩, ⟨2,1⟩, ⟨4,0⟩, ⟨2,4⟩, ⟨2,2⟩] = [⟨4,0⟩, ⟨2,4⟩, ⟨0,0⟩] := by
  decide

example : centre [⟨0,0⟩, ⟨4,0⟩, ⟨0,4⟩] = ⟨4/3, 4/3⟩ := by decide

end RatEval

/-! ### Scaling equivariance of the hull/centroid pipeline -/

lemma vLE_smul {k : ℚ} (hk : 0 < k) (a b : Vec2) :
    vLE (smul k a) (smul k b) = vLE a b := by
  simp only [vLE, smul, decide_eq_decide]
  rw [mul_lt_mul_left hk, mul_le_mul_left hk, mul_right_inj' hk.ne']

lemma insertV_smul {k : ℚ} (hk : 0 < k) (p : Vec2) (l : List Vec2) :
    insertV (smul k p) (l.map (smul k)) = (insertV p l).map (smul k) := by
  induction l with
  | nil => simp [insertV]
  | cons q r ih =>
    simp only [List.map_cons, insertV, vLE_smul hk]
    cases h : vLE p q <;> simp [h, ih]

lemma sortV_smul {k : ℚ} (hk : 0 < k) (l : List Vec2) :
    sortV (l.map (smul k)) = (sortV l).map (smul k) := by
  induction l with
  | nil => simp [sortV]
  | cons p r ih => simp only [List.map_cons, sortV, ih, insertV_smul hk]

lemma cross3_smul (k : ℚ) (a b c : Vec2) :
    cross3 (smul k a) (smul k b) (smul k c) = k ^ 2 * cross3 a b c := by
  simp only [cross3, smul]; ring

lemma addHullPoint_smul {k : ℚ} (hk : 0 < k) (acc : List Vec2) (p : Vec2) :
    addHullPoint (acc.map (smul k)) (smul k p) = (addHullPoint acc p).map (smul k) := by
  induction acc with
  | nil => simp [addHullPoint]
  | cons b t ih =>
    cases t with
    | nil => simp [addHullPoint]
    | cons a rest =>
      have h2 : (0 : ℚ) < k ^ 2 := by positivity
      have hiff : k ^ 2 * cross3 a b p ≤ 0 ↔ cross3 a b p ≤ 0 := by
        constructor <;> intro h <;> nlinarith
      simp only [List.map_cons, addHullPoint, cross3_smul, hiff]
      by_cases hc : cross3 a b p ≤ 0 <;> simp only [hc, if_true, if_false] at *
      · exact ih
      · simp [hc]

lemma halfHull_smul {k : ℚ} (hk : 0 < k) (pts : List Vec2) :
    halfHull (pts.map (smul k)) = (halfHull pts).map (smul k) := by
  suffices h : ∀ acc : List Vec2,
      (pts.map (smul k)).foldl addHullPoint (acc.map (smul k)) =
        (pts.foldl addHullPoint acc).map (smul k) by
    simpa using h []
  induction pts with
  | nil => intro acc; simp
  | cons p r ih =>
    intro acc
    simp only [List.map_cons, List.foldl_cons, addHullPoint_smul hk, ih]

lemma hull_smul {k : ℚ} (hk : 0 < k) (pts : List Vec2) :
    hull (pts.map (smul k)) = (hull pts).map (smul k) := by
  simp only [hull, sortV_smul hk, ← List.map_reverse, halfHull_smul hk,
    ← List.map_tail, List.map_append]

lemma crossV_smul (k : ℚ) (a b : Vec2) :
    crossV (smul k a) (smul k b) = k ^ 2 * crossV a b := by
  simp only [crossV, smul]; ring

lemma cyclePairs_map (f : Vec2 → Vec2) (vs : List Vec2) :
    cyclePairs (vs.map f) = (cyclePairs vs).map (Prod.map f f) := by
  simp [cyclePairs, ← List.map_rotate, List.zip_map]

lemma signedArea_smul (k : ℚ) (vs : List Vec2) :
    signedArea (vs.map (smul k)) = k ^ 2 * signedArea vs := by
  simp only [signedArea, cyclePairs_map, List.map_map]
  rw [show ((fun pq : Vec2 × Vec2 => (pq.1.x - pq.2.x) * (pq.1.y + pq.2.y)) ∘
      Prod.map (smul k) (smul k)) = fun pq : Vec2 × Vec2 =>
      k ^ 2 * ((pq.1.x - pq.2.x) * (pq.1.y + pq.2.y)) from funext fun pq => by
    simp [smul, Prod.map]; ring]
  rw [List.sum_map_mul_left, mul_div_assoc]

lemma centre_smul {k : ℚ} (hk : k ≠ 0) (vs : List Vec2) :
    centre (vs.map (smul k)) = smul k (centre vs) := by
  have hx : ((fun pq : Vec2 × Vec2 => (pq.1.x + pq.2.x) * crossV pq.1 pq.2) ∘
      Prod.map (smul k) (smul k)) = fun pq : Vec2 × Vec2 =>
      k ^ 3 * ((pq.1.x + pq.2.x) * crossV pq.1 pq.2) :=
    funext fun pq => by simp [smul, crossV, Prod.map]; ring
  have hy : ((fun pq : Vec2 × Vec2 => (pq.1.y + pq.2.y) * crossV pq.1 pq.2) ∘
      Prod.map (smul k) (smul k)) = fun pq : Vec2 × Vec2 =>
      k ^ 3 * ((pq.1.y + pq.2.y) * crossV pq.1 pq.2) :=
    funext fun pq => by simp [smul, crossV, Prod.map]; ring
  simp only [centre, cyclePairs_map, List.map_map, signedArea_smul, hx, hy,
    List.sum_map_mul_left, smul, Vec2.mk.injEq]
  rcases eq_or_ne (signedArea vs) 0 with hA | hA
  · simp [hA]
  · constructor <;> · field_simp; ring

lemma takeWhile_dropWhile_length (p : Char → Bool) (cs : List Char) :
    (cs.takeWhile p).length + (cs.dropWhile p).length = cs.length := by
  rw [← List.length_append, List.takeWhile_append_dropWhile]

lemma matchBody_rest_length {cs m r : List Char}
    (h : matchBody cs = some (m, r)) : r.length < cs.length := by
  have hlen := takeWhile_dropWhile_length Char.isDigit cs
  unfold matchBody at h
  split at h
  case _ r2 heq =>
    have hr2 : r2.length + 1 ≤ cs.length := by
      have h1 := congrArg List.length heq
      simp only [List.length_cons] at h1
      omega
    split at h
    case _ =>
      split_ifs at h with hemp
      have hne : (cs.takeWhile Char.isDigit).length ≠ 0 := by
        simpa [List.isEmpty_iff, List.length_eq_zero] using hemp
      simp only [Option.some.injEq, Prod.mk.injEq] at h
      obtain ⟨rfl, rfl⟩ := h
      omega
    case _ d2 hd2 =>
      simp only [Option.some.injEq, Prod.mk.injEq] at h
      obtain ⟨rfl, rfl⟩ := h
      have := takeWhile_dropWhile_length Char.isDigit r2
      omega
  case _ =>
    split_ifs at h with hemp
    have hne : (cs.takeWhile Char.isDigit).length ≠ 0 := by
      simpa [List.isEmpty_iff, List.length_eq_zero] using hemp
    simp only [Option.some.injEq, Prod.mk.injEq] at h
    obtain ⟨rfl, rfl⟩ := h
    omega

lemma matchNum_rest_length {cs m r : List Char}
    (h : matchNum cs = some (m, r)) : r.length < cs.length := by
  unfold matchNum at h
  split at h
  case _ rest =>
    split at h
    case _ m0 r0 hb =>
      simp only [Option.some.injEq, Prod.mk.injEq] at h
      obtain ⟨rfl, rfl⟩ := h
      have := matchBody_rest_length hb
      simp only [List.length_cons]
      omega
    case _ => exact absurd h (by simp)
  case _ => exact matchBody_rest_length h

lemma tokenizeF_fuel :
    ∀ fuel fuel' cs, cs.length ≤ fuel → cs.length ≤ fuel' →
      tokenizeF fuel cs = tokenizeF fuel' cs := by
  intro fuel
  induction fuel with
  | zero =>
    intro fuel' cs h _
    cases cs with
    | nil => cases fuel' <;> rfl
    | cons c rest => simp at h
  | succ fuel ih =>
    intro fuel' cs h h'
    cases cs with
    | nil => cases fuel' <;> rfl
    | cons c rest =>
      cases fuel' with
      | zero => simp at h'
      | succ fuel' =>
        simp only [tokenizeF]
        cases hm : matchNum (c :: rest) with
        | some mr =>
          have hlt := matchNum_rest_length (m := mr.1) (r := mr.2) (by simpa using hm)
          simp only [List.length_cons] at hlt h h'
          exact congrArg _ (ih fuel' mr.2 (by omega) (by omega))
        | none =>
          simp only [List.length_cons] at h h'
          exact congrArg _ (ih fuel' rest (by omega) (by omega))

lemma scaleGoF_staged (scale : ℚ) :
    ∀ fuel cs, scaleGoF scale fuel cs =
      ((tokenizeF fuel cs).map (fun t => renderSTok (scaleTok scale t))).flatten := by
  intro fuel
  induction fuel with
  | zero => intro cs; cases cs <;> rfl
  | succ fuel ih =>
    intro cs
    cases cs with
    | nil => rfl
    | cons c rest =>
      simp only [scaleGoF, tokenizeF]
      cases hm : matchNum (c :: rest) with
      | some mr =>
        simp [ih, scaleTok, renderSTok]
      | none =>
        simp [ih, scaleTok, renderSTok]

lemma scaleGo_staged (scale : ℚ) (cs : List Char) :
    scaleGo scale cs =
      ((tokenize cs).map (fun t => renderSTok (scaleTok scale t))).flatten :=
  scaleGoF_staged scale cs.length cs

section StringEval

attribute [local semireducible] Rat.add Rat.mul Rat.inv Rat.sub Rat.ofScientific

example : tokenize "M10 -2.5L.5z".data =
    [Tok.chr 'M', Tok.num ['1', '0'], Tok.chr ' ', Tok.num ['-', '2', '.', '5'],
     Tok.chr 'L', Tok.num ['.', '5'], Tok.chr 'z'] := by decide

example : scaleDString "M10 -2.5L.5z" 2 = "M20 -5L1z" := by decide

example : scaleDString "M1e2 0" 2 = "M2e4 0" := by decide

example : svgNumValues "M1e2 0" = [100, 0] := by decide

example : svgNumValues "M2e4 0" = [20000, 0] := by decide

end StringEval

/-! ### The claims -/

/-- C1: `#createBodies` yields exactly one body per cached descriptor that
`Bodies.fromVertices` accepts and none for a rejected descriptor, so the
body list is the in-order filter of the descriptor list (zip by index),
its length is the descriptor count minus the rejected count, and hence at
most the descriptor count; and no later operation (`#handleResize`,
`pause`, `resume`, `destroy`) re-orders the pairing. -/
theorem createBodies_pairing (fv : FromVertices) (cfg : Config)
    (ox oy : ℚ) (cache : List Shape) :
    (createBodies fv cfg ox oy cache).map Prod.snd =
      cache.filter (bodyAccepted fv cfg ox oy) ∧
    (createBodies fv cfg ox oy cache).length =
      cache.length -
        (cache.filter (fun sh => !bodyAccepted fv cfg ox oy sh)).length ∧
    (createBodies fv cfg ox oy cache).length ≤ cache.length ∧
    (∀ (s : Inst) (w h : ℚ), (handleResize s w h).bodies = s.bodies) ∧
    (∀ s : Inst, (pause s).1.bodies = s.bodies ∧
      (resume s).1.bodies = s.bodies) ∧
    (∀ (s : Inst) (ext : Ext), (destroy s ext).1.1.bodies = s.bodies) := by
  refine ⟨?_, ?_, ?_, fun s w h => rfl, fun s => ⟨rfl, rfl⟩, fun s ext => rfl⟩
  · induction cache with
    | nil => simp [createBodies]
    | cons sh rest ih =>
      cases hfv : fv (sh.centroid.x + ox) (sh.centroid.y + oy) sh.hull
          cfg.physics.restitution cfg.physics.friction
          cfg.physics.simplifyTolerance cfg.physics.minimumArea with
      | none => simp [createBodies, hfv, List.filter_cons, bodyAccepted, ih]
      | some b => simp [createBodies, hfv, List.filter_cons, bodyAccepted, ih]
  · induction cache with
    | nil => simp [createBodies]
    | cons sh rest ih =>
      have hle := List.length_filter_le
        (fun sh => !bodyAccepted fv cfg ox oy sh) rest
      cases hfv : fv (sh.centroid.x + ox) (sh.centroid.y + oy) sh.hull
          cfg.physics.restitution cfg.physics.friction
          cfg.physics.simplifyTolerance cfg.physics.minimumArea with
      | none =>
        have hacc : bodyAccepted fv cfg ox oy sh = false := by
          simp [bodyAccepted, hfv]
        simp [createBodies, hfv, List.filter_cons, hacc, ih]
      | some b =>
        have hacc : bodyAccepted fv cfg ox oy sh = true := by
          simp [bodyAccepted, hfv]
        simp [createBodies, hfv, List.filter_cons, hacc, ih]
        omega
  · induction cache with
    | nil => simp [createBodies]
    | cons sh rest ih =>
      cases hfv : fv (sh.centroid.x + ox) (sh.centroid.y + oy) sh.hull
          cfg.physics.restitution cfg.physics.friction
          cfg.physics.simplifyTolerance cfg.physics.minimumArea with
      | none =>
        simp only [createBodies, hfv, List.length_cons]
        omega
      | some b =>
        simp only [createBodies, hfv, List.length_cons]
        omega

/-- C2 (amended): after a debounced resize the canvas takes the container's
current size, the floor wall (index 0) and the right wall (index 2) are
moved to the new viewport's edges, and the left wall (index 1) keeps its
old position — the handler does not touch it. -/
theorem handleResize_walls (s : Inst) (w h : ℚ) (h3 : s.walls.length = 3) :
    (handleResize s w h).canvasW = w ∧ (handleResize s w h).canvasH = h ∧
    ((handleResize s w h).walls.getD 0 default).position = ⟨w / 2, h + 50⟩ ∧
    ((handleResize s w h).walls.getD 2 default).position = ⟨w + 50, h / 2⟩ ∧
    (handleResize s w h).walls.getD 1 default = s.walls.getD 1 default ∧
    (handleResize s w h).walls.length = s.walls.length := by
  obtain ⟨b0, b1, b2, hwalls⟩ := List.length_eq_three.1 h3
  simp [handleResize, hwalls, modifyIdx, setPosition]

/-- C5: the resize handler leaves every dynamic body — the whole
body/descriptor list, with positions and velocities — untouched, creates
and destroys nothing in the world, and changes only the canvas size and
wall geometry. -/
theorem handleResize_preserves_bodies (s : Inst) (w h : ℚ) :
    (handleResize s w h).bodies = s.bodies ∧
    (handleResize s w h).shapeCache = s.shapeCache ∧
    (handleResize s w h).worldBodyCount = s.worldBodyCount ∧
    (handleResize s w h).worldConstraintCount = s.worldConstraintCount ∧
    (handleResize s w h).runnerRunning = s.runnerRunning ∧
    (handleResize s w h).walls.length = s.walls.length := by
  refine ⟨rfl, rfl, rfl, rfl, rfl, ?_⟩
  simp [handleResize, modifyIdx_length]

/-- C3 (amended): `destroy()` removes the p5 resize listener, frame
callback and canvas and empties the world, and calling it again on the
already-destroyed instance changes nothing further and does not raise; but
the devMode keydown listener is never detached (its count is unchanged, not
zero) and the runner keeps running. -/
theorem destroy_detaches (s : Inst) (ext : Ext) :
    (destroy s ext).1.2.resizeListeners = ext.resizeListeners - 1 ∧
    (destroy s ext).1.2.frameCallbacks = ext.frameCallbacks - 1 ∧
    (destroy s ext).1.2.canvases = ext.canvases - 1 ∧
    (destroy s ext).1.2.keydownListeners = ext.keydownListeners ∧
    (destroy s ext).1.1.worldBodyCount = 0 ∧
    (destroy s ext).1.1.worldConstraintCount = 0 ∧
    (destroy s ext).1.1.runnerRunning = s.runnerRunning ∧
    (destroy (destroy s ext).1.1 (destroy s ext).1.2).1.1 =
      (destroy s ext).1.1 ∧
    (destroy (destroy s ext).1.1 (destroy s ext).1.2).1.2.keydownListeners =
      ext.keydownListeners := by
  simp [destroy]

/-- C4 (amended): the scaler rewrites exactly the maximal matches of its
decimal-literal pattern (optional sign, digits, optional fraction — no
exponent part): the output is the concatenation of the scan's tokens with
each numeric match replaced by the rendering of `parseFloat(match) * scale`
and every other character kept; so over the scan's own tokens, every
numeric value is multiplied by the factor and the non-numeric characters
are preserved in order.  (A coordinate in exponent notation such as `1e2`
is not one such match — see the counterexample.) -/
theorem scaleDString_scales_tokens (d : String) (scale : ℚ) :
    scaleDString d scale =
      ⟨((tokenize d.data).map (fun t => renderSTok (scaleTok scale t))).flatten⟩ ∧
    ((tokenize d.data).map (scaleTok scale)).filterMap stokVal =
      ((tokenize d.data).filterMap tokVal).map (fun q => q * scale) ∧
    ((tokenize d.data).map (scaleTok scale)).filterMap stokChr =
      (tokenize d.data).filterMap tokChr := by
  refine ⟨congrArg String.mk (scaleGo_staged scale d.data), ?_, ?_⟩ <;>
  · induction tokenize d.data with
    | nil => simp
    | cons t ts ih =>
      cases t <;>
        simp [scaleTok, stokVal, tokVal, stokChr, tokChr, ih, rawVal]

/-- C9 (amended): `pause()` and `resume()` return the instance itself;
`destroy()` has no return statement and returns `undefined`. -/
theorem lifecycle_returns (s : Inst) (ext : Ext) :
    (pause s).2 = some (pause s).1 ∧ (resume s).2 = some (resume s).1 ∧
    (destroy s ext).2 = none := by
  simp [pause, resume, destroy]

/-- C6: when the container selector resolves to no element, construction
throws `Invalid container selector` synchronously, before any engine,
runner, p5 instance, canvas, listener or frame callback is created — the
external resource state is returned unchanged and no instance is
produced. -/
theorem construct_bad_container (p2v : PathToVertices) (fv : FromVertices)
    (doc : Document) (containerSel svgSel : String) (cfg : Config) (ext : Ext)
    (hnone : doc.containers containerSel = none) :
    construct p2v fv doc containerSel svgSel cfg ext =
      (Except.error "Invalid container selector", ext) := by
  simp [construct, hnone]

/-- C6 witness. -/
theorem construct_bad_container_witness :
    construct p2v0 fv0 { containers := fun _ => none, svgs := fun _ => none }
      "#missing" "svg" defaultConfig extZero =
      (Except.error "Invalid container selector", extZero) :=
  construct_bad_container p2v0 fv0 _ "#missing" "svg" defaultConfig extZero rfl

/-- C7: with a source that resolves to no SVG, or to an SVG with zero
`path` elements, construction succeeds, the shape cache stays empty, no
dynamic body is created, and the three static walls are still created. -/
theorem construct_empty_svg (p2v : PathToVertices) (fv : FromVertices)
    (doc : Document) (containerSel svgSel : String) (cfg : Config) (ext : Ext)
    (cont : Container) (hc : doc.containers containerSel = some cont)
    (hs : doc.svgs svgSel = none ∨
      ∃ svg, doc.svgs svgSel = some svg ∧ svg.paths = []) :
    ((construct p2v fv doc containerSel svgSel cfg ext).1).map
      (fun i => (i.shapeCache, i.bodies, i.walls.length,
        i.walls.all (fun b => b.isStatic))) =
      Except.ok ([], [], 3, true) := by
  have hcache :
      initShapeCache p2v doc svgSel cfg.physics.vertexLimit cfg.scale = [] := by
    rcases hs with hnone | ⟨svg, hsome, hp⟩
    · simp [initShapeCache, hnone]
    · simp [initShapeCache, hsome, hp]
  simp only [construct, hc, hcache, calcCenterOffsets, createWalls, staticRect]
  rfl

/-- C7 witness. -/
theorem construct_empty_svg_witness :
    ((construct p2v0 fv0 doc2 "#c" "svg" defaultConfig extZero).1).map
      (fun i => (i.shapeCache, i.bodies, i.walls.length,
        i.walls.all (fun b => b.isStatic))) =
      Except.ok ([], [], 3, true) :=
  construct_empty_svg p2v0 fv0 doc2 "#c" "svg" defaultConfig extZero
    ⟨200, 150⟩ rfl (Or.inl rfl)

/-- C8: over exact arithmetic, scaling a path outline by a positive factor
`k` and then taking the centroid of its convex hull equals scaling the
centroid of the unscaled outline's hull by `k`. -/
theorem centre_hull_smul (k : ℚ) (pts : List Vec2) (hk : 0 < k) :
    centre (hull (pts.map (smul k))) = smul k (centre (hull pts)) := by
  rw [hull_smul hk, centre_smul hk.ne']

/-- C8 witness. -/
theorem centre_hull_smul_witness :
    (0 : ℚ) < 2 ∧
    centre (hull ([⟨0, 0⟩, ⟨4, 0⟩, ⟨0, 4⟩].map (smul 2))) =
      smul 2 (centre (hull [⟨0, 0⟩, ⟨4, 0⟩, ⟨0, 4⟩])) :=
  ⟨by norm_num, centre_hull_smul 2 [⟨0, 0⟩, ⟨4, 0⟩, ⟨0, 4⟩] (by norm_num)⟩

/-- C10: for every cached path element, the descriptor's fill is the
default `#3498db` when the `fill` attribute is absent or empty, and the
attribute's value otherwise. -/
theorem initShapeCache_fill (p2v : PathToVertices) (doc : Document)
    (svgSel : String) (vertexLimit scale : ℚ) (svg : SvgEl)
    (hs : doc.svgs svgSel = some svg) :
    (initShapeCache p2v doc svgSel vertexLimit scale).map (fun sh => sh.fill) =
      svg.paths.map (fun pe =>
        match pe.fill with
        | none => "#3498db"
        | some f => if f = "" then "#3498db" else f) := by
  simp only [initShapeCache, hs, List.map_map]
  rfl

section ClaimEval

attribute [local semireducible] Rat.add Rat.mul Rat.inv Rat.sub Rat.ofScientific

/-- C2 counterexample: resizing `inst1` (a 100 × 100 construction) to
100 × 300 leaves the left wall at its old position `(-50, 50)` — not at the
new viewport's left-edge position `(-50, 150)` that `#createWalls` would
give — so not all three walls are repositioned. -/
theorem handleResize_left_wall_cex :
    ((handleResize inst1 100 300).walls.getD 1 default).position ≠
      ((createWalls 100 300).getD 1 default).position := by
  decide

/-- C2 witness (for the amended claim at a concrete resize). -/
theorem handleResize_walls_witness :
    (handleResize inst1 100 300).walls.getD 1 default =
      inst1.walls.getD 1 default :=
  (handleResize_walls inst1 100 300 (by decide)).2.2.2.2.1

/-- C3 counterexample: `inst1` was constructed in devMode, so one keydown
listener is attached; after `destroy()` — and after a second, error-free
`destroy()` — the keydown listener count is still 1, not 0. -/
theorem destroy_keydown_cex :
    destr1.1.2.keydownListeners = 1 ∧ destr2.1.2.keydownListeners = 1 ∧
    destr2.1.2.keydownListeners ≠ 0 := by
  decide

/-- C4 counterexample: the SVG coordinate `1e2` (value 100) in `M1e2 0`,
scaled by 2, should become 200; the regex instead matches `1` and `2`
separately, producing `M2e4 0` whose first coordinate is 20000. -/
theorem scaleDString_exponent_cex :
    scaleDString "M1e2 0" 2 = "M2e4 0" ∧
    svgNumValues "M1e2 0" = [100, 0] ∧
    svgNumValues (scaleDString "M1e2 0" 2) = [20000, 0] ∧
    svgNumValues (scaleDString "M1e2 0" 2) ≠
      (svgNumValues "M1e2 0").map (fun q => q * 2) := by
  decide

/-- C9 counterexample: on a concrete instance, `destroy()` returns
`undefined` (`none`), not the instance. -/
theorem destroy_returns_none_cex :
    (destroy inst1 ext1).2 = none ∧
    (destroy inst1 ext1).2 ≠ some (destroy inst1 ext1).1.1 := by
  decide

/-- C10 witness. -/
theorem initShapeCache_fill_witness :
    (initShapeCache p2v0 doc3 "svg" 14 1).map (fun sh => sh.fill) =
      ["#3498db", "#3498db", "red"] :=
  (initShapeCache_fill p2v0 doc3 "svg" 14 1 svg3 rfl).trans (by decide)

end ClaimEval

end SVGP
